import Mathlib

/-!
Verification development for the "calligrapher" CLI (learn-inkjs repository).

The shallow embedding below translates the plain-text story interpreter,
the terminal presenter, the compiler adapter and the session-restore
command from `src/calligrapher/src/cli.ts` and
`src/calligrapher/src/compiler.ts` into Lean.

Modelling conventions:
* JavaScript strings are Lean `String`s; the handful of string operations
  the source uses (`split('\n')`, `trim()`, `startsWith`, global
  `replace`, `includes`, `toLowerCase`, `path.extname`) are implemented
  as structurally recursive functions on `List Char` so that every
  theorem and witness can be evaluated by the kernel.  JS `\s` and
  `trim()` accept a slightly larger set of Unicode spaces than the ASCII
  set modelled here; no story content in the repository depends on that
  difference.
* The filesystem is a predicate `String → Bool` ("does this path
  exist"), the external compiler subprocess is an oracle
  `String → Option String` (`none` = exit 0, `some e` = the thrown error
  text), and the external inkjs engine operations used by `replay` are
  oracles as well: the repository does not implement them (spec section 6
  treats them as collaborators).
* Observable behaviour (console prints, menus shown, subprocess
  invocations, filesystem probes) is reified as lists of events so that
  "does not probe / does not invoke / prints nothing" claims are
  statements about the event list.
-/

/-- ASCII model of the whitespace class used by JS `trim()` and `\s`. -/
def isWs (c : Char) : Bool :=
  c == ' ' || c == '\t' || c == '\n' || c == '\r'

/-- Model of JS `content.split('\n')` on the character list of the string. -/
def splitNl : List Char → List (List Char)
  | [] => [[]]
  | c :: cs =>
    let r := splitNl cs
    if c = '\n' then [] :: r
    else
      match r with
      | [] => [[c]]
      | h :: t => (c :: h) :: t

/-- Model of JS `String.prototype.trim()`. -/
def jsTrim (l : List Char) : List Char :=
  ((l.dropWhile isWs).reverse.dropWhile isWs).reverse

/-- `leadMatch l pat` holds when `pat` occurs at the head of `l`. -/
def leadMatch : List Char → List Char → Bool
  | _, [] => true
  | [], _ :: _ => false
  | c :: cs, d :: ds => c == d && leadMatch cs ds

/-- Model of JS `String.prototype.includes` (for a fixed pattern). -/
def hasSub : List Char → List Char → Bool
  | [], pat => leadMatch [] pat
  | c :: cs, pat => leadMatch (c :: cs) pat || hasSub cs pat

/-- Model of `line.replace(/===/g, '')`: removes every (non-overlapping,
left-to-right) occurrence of `===`. -/
def stripMarkers : List Char → List Char
  | '=' :: '=' :: '=' :: rest => stripMarkers rest
  | c :: rest => c :: stripMarkers rest
  | [] => []

/-- Model of `line.startsWith('===')`. -/
def startsWithMarker : List Char → Bool
  | '=' :: '=' :: '=' :: _ => true
  | _ => false

/-- Model of `line.startsWith('*')`. -/
def startsStar : List Char → Bool
  | '*' :: _ => true
  | _ => false

/-! ## Plain-text story parsing (`runTextStory`, cli.ts lines 118-135) -/

/-- Parser state of the plain-text loader: the section map (a JS object
`story`), the name of the section currently being filled, and the
`allSections` list the source also maintains. -/
structure ParseState where
  story : String → Option (List String)
  currentSection : String
  allSections : List String

def initParseState : ParseState :=
  { story := fun _ => none, currentSection := "", allSections := [] }

/-- The `===` branch of the line loop: start (and reset) the named
section, remember it in `allSections` when new. -/
def markerLine (st : ParseState) (line : String) : ParseState :=
  let name := String.mk (jsTrim (stripMarkers line.data))
  { story := fun k => if k = name then some [] else st.story k
    currentSection := name
    allSections :=
      if st.allSections.any (fun s => decide (s = name)) then st.allSections
      else st.allSections ++ [name] }

/-- The content branch of the line loop: `story[currentSection].push(line)`. -/
def pushLine (st : ParseState) (line : String) : ParseState :=
  { st with story := fun k =>
      if k = st.currentSection then
        some (((st.story st.currentSection).getD []) ++ [line])
      else st.story k }

/-- One iteration of the `for (const line of lines)` loop of
`runTextStory`: a `===` marker starts (and resets) a section; any other
line with non-blank content is appended to the current section when one
is open. -/
def parseLine (st : ParseState) (line : String) : ParseState :=
  if startsWithMarker line.data then markerLine st line
  else if st.currentSection ≠ "" ∧ jsTrim line.data ≠ [] then pushLine st line
  else st

/-- `content.split('\n').filter(line => line.trim())`. -/
def linesOf (content : String) : List String :=
  ((splitNl content.data).map String.mk).filter (fun l => !(jsTrim l.data).isEmpty)

/-- The section map built by `runTextStory` from the file content. -/
def parseText (content : String) : ParseState :=
  (linesOf content).foldl parseLine initParseState

/-! ## Choice extraction (cli.ts lines 151-170)

`runTextStory` routes a line to choice processing when
`line.startsWith('*') || line.toLowerCase().includes('[exit]')`, and then
extracts (text, target) with `choice.match(/^\*?\s*(.+?)\s*->\s*(\S+)/)`.
The matcher below reproduces the backtracking order of that regex:
the optional `\*?` is tried greedily, the first `\s*` from its maximal
width downwards, and the lazy `(.+?)` from width 1 upwards; after the
group, `\s*->` can only match at the end of the maximal whitespace run
(`-` is not whitespace), and `\s*(\S+)` likewise is deterministic. -/

/-- Classification test of cli.ts line 152. -/
def isChoiceLine (line : String) : Bool :=
  startsStar line.data || hasSub (line.data.map Char.toLower) "[exit]".data

/-- Deterministic tail of the regex after group 1: `\s*->\s*(\S+)`. -/
def matchTail (rest : List Char) : Option (List Char) :=
  match rest.dropWhile isWs with
  | '-' :: '>' :: r2 =>
    let tgt := (r2.dropWhile isWs).takeWhile (fun c => !(isWs c))
    if tgt.isEmpty then none else some tgt
  | _ => none

/-- The lazy group `(.+?)`: smallest non-empty prefix after which the
tail matches.  Returns (group 1, group 2). -/
def tryGroup1 (acc : List Char) : List Char → Option (List Char × List Char)
  | [] => none
  | c :: rest =>
    match matchTail rest with
    | some tgt => some (acc ++ [c], tgt)
    | none => tryGroup1 (acc ++ [c]) rest

/-- The leading `\s*`, tried from `k` consumed characters down to 0. -/
def tryWsFrom : Nat → List Char → Option (List Char × List Char)
  | 0, t => tryGroup1 [] t
  | k + 1, t =>
    match tryGroup1 [] (t.drop (k + 1)) with
    | some r => some r
    | none => tryWsFrom k t

def tryWs (t : List Char) : Option (List Char × List Char) :=
  tryWsFrom (t.takeWhile isWs).length t

/-- The anchored match `/^\*?\s*(.+?)\s*->\s*(\S+)/`: `\*?` consumes a
leading `*` greedily and backtracks to the empty alternative. -/
def regexChoice (s : List Char) : Option (List Char × List Char) :=
  match s with
  | '*' :: rest =>
    match tryWs rest with
    | some r => some r
    | none => tryWs s
  | _ => tryWs s

/-- `group1.replace(/^\*\s*/, '')`. -/
def stripLeadStar : List Char → List Char
  | '*' :: r => r.dropWhile isWs
  | l => l

/-- Full extraction for one routed line:
`textMatch[1].replace(/^\*\s*/, '').replace(/[\[\]]/g, '').trim()` for
the text and `textMatch[2]` for the target; `none` when the regex does
not match. -/
def extractChoice (line : String) : Option (String × String) :=
  match regexChoice line.data with
  | some (g, tgt) =>
    some (String.mk (jsTrim ((stripLeadStar g).filter
            (fun c => !(c == '[') && !(c == ']')))),
          String.mk tgt)
  | none => none

/-! ## The plain-text play loop (cli.ts lines 139-197) -/

/-- Observable events of one plain-text playthrough. -/
inductive Event
  | print (s : String)
  | menu (options : List String)
  | missingSection (name : String)
  | endOfSection
deriving DecidableEq

/-- The single pass over a section's lines: choice-routed lines are
collected, every other line is printed in order (cli.ts lines 151-157). -/
def splitLines : List String → List Event × List String
  | [] => ([], [])
  | l :: ls =>
    let r := splitLines ls
    if isChoiceLine l then (r.1, l :: r.2) else (Event.print l :: r.1, r.2)

/-- The loop of cli.ts lines 162-170: build the `choices` array and the
`targets` object (later assignment to an equal text overwrites). -/
def buildMenu (cls : List String) : List String × (String → Option String) :=
  cls.foldl (fun acc cl =>
    match extractChoice cl with
    | some p => (acc.1 ++ [p.1], fun k => if k = p.1 then some p.2 else acc.2 k)
    | none => acc) ([], fun _ => none)

/-- JS `targets[selected] || current`. -/
def orFalsy (o : Option String) (d : String) : String :=
  match o with
  | some s => if s = "" then d else s
  | none => d

/-- The `while (playAgain)` loop of `runTextStory`, with explicit fuel,
driven by a script of menu selection indices.  An empty script models the
player never answering the pending prompt; an out-of-range index models
`choices[selection]` being `undefined` (the loop then re-enters with the
section pointer unchanged, as in the source). -/
def playFuel : Nat → (String → Option (List String)) → String → List Nat →
    List Event × String
  | 0, _, current, _ => ([], current)
  | fuel + 1, story, current, inputs =>
    match story current with
    | none => ([Event.missingSection current], current)
    | some lines =>
      let ps := splitLines lines
      let bm := buildMenu ps.2
      if bm.1.length > 0 then
        let m := bm.1 ++ ["Quit"]
        match inputs with
        | [] => (ps.1 ++ [Event.menu m], current)
        | i :: rest =>
          match m.get? i with
          | some sel =>
            if sel = "Quit" then (ps.1 ++ [Event.menu m], current)
            else
              let r := playFuel fuel story (orFalsy (bm.2 sel) current) rest
              (ps.1 ++ Event.menu m :: r.1, r.2)
          | none =>
            let r := playFuel fuel story current rest
            (ps.1 ++ Event.menu m :: r.1, r.2)
      else (ps.1 ++ [Event.endOfSection], current)

/-- `runTextStory`: parse the file content, then play from `start`. -/
def runTextStory (content : String) (inputs : List Nat) (fuel : Nat) :
    List Event × String :=
  playFuel fuel (parseText content).story "start" inputs

/-! Spec-side definitions, formalising the wording of the specification
for comparison with the code (used by refutations/refinements only). -/

/-- Formalised from the spec wording of C2: the line "contains an arrow
token (`->`) followed by a target name" (a non-blank token). -/
def arrowTarget : List Char → Bool
  | [] => false
  | '-' :: '>' :: rest =>
    !((rest.dropWhile isWs).takeWhile (fun c => !(isWs c))).isEmpty
      || arrowTarget rest
  | _ :: rest => arrowTarget rest

/-- The claim C2 criterion for a choice line: begins with `*` and
contains `->` followed by a target name. -/
def specChoiceLine (l : String) : Bool :=
  startsStar l.data && arrowTarget l.data

/-! ## Terminal presenter (`displayText`, cli.ts lines 238-252) -/

/-- The five presentation styles of the if/else chain in `displayText`. -/
inductive TextStyle
  | title
  | scene
  | combat
  | dialog
  | plain
deriving DecidableEq

/-- Model of JS `tags.includes(t)`. -/
def tagsHave (tags : List String) (t : String) : Bool :=
  tags.any (fun x => decide (x = t))

/-- `displayText`: `none` means nothing is printed at all (the early
return on blank text); `some s` means the text is printed once with
style `s`.  Chalk formatting is abstracted into the style constructor. -/
def displayText (text : String) (tags : List String) : Option TextStyle :=
  if (jsTrim text.data).isEmpty then none
  else if tagsHave tags "title" then some TextStyle.title
  else if tagsHave tags "scene" then some TextStyle.scene
  else if tagsHave tags "combat" then some TextStyle.combat
  else if tagsHave tags "dialog" then some TextStyle.dialog
  else some TextStyle.plain

/-- Formalised from the spec wording of C6: the fixed priority order
title > scene > combat > dialog, defaulting to plain. -/
def specPriorityOrder : List (String × TextStyle) :=
  [("title", TextStyle.title), ("scene", TextStyle.scene),
   ("combat", TextStyle.combat), ("dialog", TextStyle.dialog)]

/-- Formalised from the spec wording of C6: the style of the
highest-priority tag present in the list, or plain when none is. -/
def specPriorityStyle (tags : List String) : TextStyle :=
  match specPriorityOrder.find? (fun p => tagsHave tags p.1) with
  | some p => p.2
  | none => TextStyle.plain

/-! ## Compiler adapter (`compiler.ts`) -/

/-- `os.platform()` values the adapter distinguishes. -/
inductive Platform
  | win32
  | darwin
  | linux
  | other
deriving DecidableEq

/-- Model of `path.join` (plain separator insertion; node's `..`
normalisation is irrelevant here because candidate paths are only ever
compared against the filesystem predicate as opaque strings). -/
def pathJoin : List String → String
  | [] => ""
  | [p] => p
  | p :: ps => p ++ "/" ++ pathJoin ps

/-- The ordered candidate list of `findInklecate` (compiler.ts lines
24-35), parameterised by `__dirname`, `process.cwd()` and
`os.homedir()`. -/
def possiblePaths (dirname cwd home : String) (pf : Platform) : List String :=
  [ pathJoin [dirname, "..", "..", "bin", "inklecate"],
    pathJoin [dirname, "..", "..", "bin",
      if pf = Platform.win32 then "inklecate_win.exe" else "inklecate"],
    pathJoin [cwd, "bin", "inklecate"],
    pathJoin [cwd, "bin",
      if pf = Platform.win32 then "inklecate_win.exe" else "inklecate"],
    pathJoin [dirname, "..", "bin", "inklecate"],
    "/usr/local/bin/inklecate",
    "/usr/bin/inklecate",
    pathJoin [home, ".local", "bin", "inklecate"],
    pathJoin [home, "bin", "inklecate"],
    pathJoin [home, ".nvm", "versions", "node", "v22.15.0", "lib",
      "node_modules", "@6i", "ink-tools", "bin", "inklecate",
      "inklecate_win.exe"] ]

/-- The extra loop of compiler.ts lines 48-58 (reached only when the main
loop found nothing). -/
def linuxPaths : List String :=
  ["/usr/bin/inklecate", "/usr/local/bin/inklecate"]

/-- First existing path wins; also records every path probed with
`fs.existsSync` (the `chmodSync` on a hit is a caught, ignored side
effect and is not modelled). -/
def findFirstT (fs : String → Bool) : List String → Option String × List String
  | [] => (none, [])
  | p :: ps =>
    if fs p then (some p, [p])
    else
      let r := findFirstT fs ps
      (r.1, p :: r.2)

/-- `findInklecate` with its probe trace. -/
def findInklecateT (fs : String → Bool) (dirname cwd home : String)
    (pf : Platform) : Option String × List String :=
  let r := findFirstT fs (possiblePaths dirname cwd home pf)
  match r.1 with
  | some p => (some p, r.2)
  | none =>
    if pf = Platform.linux then
      let r2 := findFirstT fs linuxPaths
      (r2.1, r.2 ++ r2.2)
    else (none, r.2)

/-- `findInklecate` (compiler.ts lines 20-61). -/
def findInklecate (fs : String → Bool) (dirname cwd home : String)
    (pf : Platform) : Option String :=
  (findInklecateT fs dirname cwd home pf).1

/-- Model of JS `s.endsWith(suffix)`. -/
def endsWithL (l suf : List Char) : Bool :=
  leadMatch l.reverse suf.reverse

/-- Model of `path.extname`: the suffix of the basename from its last
dot, empty when there is no dot or the only dot leads the basename. -/
def extname (p : String) : String :=
  let revBase := p.data.reverse.takeWhile (fun c => !(c == '/'))
  let extRev := revBase.takeWhile (fun c => !(c == '.'))
  if extRev.length = revBase.length then ""
  else if extRev.length + 1 = revBase.length then ""
  else String.mk ('.' :: extRev.reverse)

/-- Model of JS `toLowerCase()`. -/
def lowerS (s : String) : String :=
  String.mk (s.data.map Char.toLower)

/-- Model of `s.replace(/\.ink$/, '.json')`. -/
def replaceInkExt (s : String) : String :=
  if endsWithL s.data ".ink".data then
    String.mk (s.data.reverse.drop 4).reverse ++ ".json"
  else s

/-- The result record of `compileInk` (compiler.ts lines 6-11). -/
structure CompilerResult where
  success : Bool
  outputPath : Option String := none
  error : Option String := none
  inklecatePath : Option String := none
deriving DecidableEq

/-- The options record of `compileInk` (verbose only affects logging). -/
structure CompileArgs where
  inputPath : String
  outputPath : Option String := none
  verbose : Bool := false

/-- Observable side effects of one `compileInk` call. -/
inductive CEffect
  | statInput (p : String)
  | probe (p : String)
  | exec (cmd : String)
deriving DecidableEq

/-- The command line built at compiler.ts lines 131-138. -/
def mkCmd (inklecatePath finalOutput inputPath : String) : String :=
  if endsWithL inklecatePath.data ".exe".data then
    "/usr/bin/mono \"" ++ inklecatePath ++ "\" -o \"" ++ finalOutput
      ++ "\" \"" ++ inputPath ++ "\""
  else
    "\"" ++ inklecatePath ++ "\" -o \"" ++ finalOutput ++ "\" \""
      ++ inputPath ++ "\""

/-- `compileInk` (compiler.ts lines 106-163) with its effect trace.
`execErr cmd = some e` models `execSync` throwing with message `e`;
`none` models a 0 exit.  The post-success BOM strip rewrites the output
file and does not change the returned result, so it is not modelled.
The function cannot throw: every fallible step of the source is inside
its `try`/`catch`. -/
def compileInkT (fs : String → Bool) (execErr : String → Option String)
    (dirname cwd home : String) (pf : Platform) (args : CompileArgs) :
    CompilerResult × List CEffect :=
  if fs args.inputPath = false then
    ({ success := false,
       error := some ("Input file not found: " ++ args.inputPath) },
     [CEffect.statInput args.inputPath])
  else
    let ext := lowerS (extname args.inputPath)
    if ext ≠ ".ink" then
      ({ success := false, error := some ("Expected .ink file, got: " ++ ext) },
       [CEffect.statInput args.inputPath])
    else
      let fr := findInklecateT fs dirname cwd home pf
      let probes := fr.2.map CEffect.probe
      match fr.1 with
      | none =>
        ({ success := false, error := some "inklecate compiler not found.",
           inklecatePath := some "" },
         CEffect.statInput args.inputPath :: probes)
      | some ip =>
        let finalOutput := args.outputPath.getD (replaceInkExt args.inputPath)
        let cmd := mkCmd ip finalOutput args.inputPath
        match execErr cmd with
        | some e =>
          ({ success := false, error := some ("Compilation failed: " ++ e) },
           CEffect.statInput args.inputPath :: probes ++ [CEffect.exec cmd])
        | none =>
          ({ success := true, outputPath := some finalOutput },
           CEffect.statInput args.inputPath :: probes ++ [CEffect.exec cmd])

/-! ## The `run` path for .ink files and the `compile` command
(cli.ts lines 68-97 and 302-312) -/

/-- How a `runInkStory` invocation proceeds. -/
inductive RunMode
  | textFallback (file : String)
  | jsonRun (file : String)
deriving DecidableEq

/-- `runInkStory`: a missing compiler falls back to `runTextStory` on the
same file; a failed compilation throws inside the `try`, is caught, and
also falls back to `runTextStory`; `jsonOk` models whether the
`runJsonStory` call inside the same `try` succeeds (its throw is caught
by the same handler). -/
def runInkStory (fs : String → Bool) (execErr : String → Option String)
    (jsonOk : Bool) (dirname cwd home : String) (pf : Platform)
    (filePath : String) (verbose : Bool) : RunMode :=
  match findInklecate fs dirname cwd home pf with
  | none => RunMode.textFallback filePath
  | some _ =>
    let jsonPath := replaceInkExt filePath
    let res := (compileInkT fs execErr dirname cwd home pf
      { inputPath := filePath, outputPath := some jsonPath,
        verbose := verbose }).1
    if res.success then
      if jsonOk then RunMode.jsonRun jsonPath else RunMode.textFallback filePath
    else RunMode.textFallback filePath

/-- The explicit `compile` command (cli.ts lines 302-312): `inkToJson`
throws exactly when `compileInk` reports failure, and the handler calls
`process.exit(1)`.  Returns the process exit code. -/
def compileCmd (fs : String → Bool) (execErr : String → Option String)
    (dirname cwd home : String) (pf : Platform) (filePath : String) : Nat :=
  if (compileInkT fs execErr dirname cwd home pf
        { inputPath := filePath }).1.success then 0
  else 1

/-! ## Session restore (`replay`, cli.ts lines 353-372) -/

/-- The two fields of the save document that `replay` reads. -/
structure SaveDoc where
  storyJson : Option String
  state : Option String
deriving DecidableEq

/-- Steps of `replay` that touch the document or the external engine. -/
inductive REffect
  | parseDoc
  | ctorCall (arg : Option String)
  | loadStateCall (arg : Option String)
deriving DecidableEq

/-- Result of the `replay` command: restored, or failed with the printed
message and the process exit code. -/
inductive ReplayOutcome
  | restored
  | failed (msg : String) (code : Nat)
deriving DecidableEq

/-- `replay` (cli.ts lines 353-372).  `parse` models `JSON.parse` (the
error value carries the thrown message); `ctorErr` models
`new Story(saveData.storyJson)` throwing and `loadErr` models
`story.state.LoadJson(saveData.state)` throwing — both are operations of
the external inkjs engine (spec section 6), given the corresponding
(possibly absent) document field.  Every throw lands in the single
`catch`, which prints `Failed to restore game: <e>` and exits 1. -/
def replayT (parse : String → Except String SaveDoc)
    (ctorErr : Option String → Option String)
    (loadErr : Option String → Option String)
    (content : String) : ReplayOutcome × List REffect :=
  match parse content with
  | Except.error e =>
    (ReplayOutcome.failed ("Failed to restore game: " ++ e) 1, [REffect.parseDoc])
  | Except.ok doc =>
    match ctorErr doc.storyJson with
    | some e =>
      (ReplayOutcome.failed ("Failed to restore game: " ++ e) 1,
       [REffect.parseDoc, REffect.ctorCall doc.storyJson])
    | none =>
      match loadErr doc.state with
      | some e =>
        (ReplayOutcome.failed ("Failed to restore game: " ++ e) 1,
         [REffect.parseDoc, REffect.ctorCall doc.storyJson,
          REffect.loadStateCall doc.state])
      | none =>
        (ReplayOutcome.restored,
         [REffect.parseDoc, REffect.ctorCall doc.storyJson,
          REffect.loadStateCall doc.state])

/-- A concrete `JSON.parse` fragment sufficient for the C3 refutation:
the empty object document parses to a record with both fields absent;
anything else is treated as a parse error. -/
def parseJson0 : String → Except String SaveDoc := fun s =>
  if s = "\x7b\x7d" then Except.ok { storyJson := none, state := none }
  else Except.error "Unexpected token"

/-- Concrete engine-constructor oracle, faithful to the collaborator
contract of spec section 6: constructing a story from an absent compiled
source throws; a present blob is accepted. -/
def ctorErr0 : Option String → Option String := fun o =>
  match o with
  | none => some "Cannot read properties of undefined"
  | some _ => none

/-- Concrete state-load oracle: accepts anything (unreached in the C3
refutation). -/
def loadErr0 : Option String → Option String := fun _ => none

/-! ## Helper lemmas -/

theorem buildMenu_foldl (cls : List String) :
    ∀ acc : List String × (String → Option String),
      (cls.foldl (fun acc cl =>
        match extractChoice cl with
        | some p => (acc.1 ++ [p.1],
            fun k => if k = p.1 then some p.2 else acc.2 k)
        | none => acc) acc).1
      = acc.1 ++ cls.filterMap (fun l => (extractChoice l).map Prod.fst) := by
  induction cls with
  | nil => intro acc; simp
  | cons l ls ih =>
    intro acc
    cases h : extractChoice l with
    | none => simp [List.foldl_cons, h, ih]
    | some p => simp [List.foldl_cons, h, ih]

theorem splitLines_fst (lines : List String) :
    (splitLines lines).1
      = (lines.filter (fun l => !(isChoiceLine l))).map Event.print := by
  induction lines with
  | nil => rfl
  | cons l ls ih =>
    cases h : isChoiceLine l <;> simp [splitLines, h, ih]

theorem splitLines_snd (lines : List String) :
    (splitLines lines).2 = lines.filter (fun l => isChoiceLine l) := by
  induction lines with
  | nil => rfl
  | cons l ls ih =>
    cases h : isChoiceLine l <;> simp [splitLines, h, ih]

theorem parse_foldl_push (ls : List String) :
    ∀ (st : ParseState) (n : String) (acc : List String),
      st.currentSection = n → n ≠ "" →
      (∀ l ∈ ls, startsWithMarker l.data = false
        ∧ (jsTrim l.data).isEmpty = false) →
      st.story n = some acc →
      (ls.foldl parseLine st).story n = some (acc ++ ls) := by
  induction ls with
  | nil => intro st n acc _ _ _ h4; simpa using h4
  | cons l ls ih =>
    intro st n acc h1 h2 h3 h4
    have hl := h3 l (List.mem_cons_self l ls)
    have hb2 : jsTrim l.data ≠ [] := by
      intro hc
      rw [hc] at hl
      simp at hl
    have hcur : st.currentSection ≠ "" := by rw [h1]; exact h2
    have hstep : parseLine st l = pushLine st l := by
      unfold parseLine
      rw [hl.1]
      simp [hcur, hb2]
    have hsec : (pushLine st l).currentSection = n := h1
    have hacc : (pushLine st l).story n = some (acc ++ [l]) := by
      unfold pushLine
      simp [h1, h4]
    have := ih (pushLine st l) n (acc ++ [l]) hsec h2
      (fun x hx => h3 x (List.mem_cons_of_mem l hx)) hacc
    simp only [List.foldl_cons, hstep]
    simpa [List.append_assoc] using this

theorem findFirstT_none (fs : String → Bool) :
    ∀ ps : List String, (∀ p ∈ ps, fs p = false) →
      findFirstT fs ps = (none, ps) := by
  intro ps
  induction ps with
  | nil => intro _; rfl
  | cons p ps ih =>
    intro h
    have hp : fs p = false := h p (List.mem_cons_self p ps)
    simp [findFirstT, hp, ih (fun x hx => h x (List.mem_cons_of_mem p hx))]

/-! ## Claim theorems -/

/-- Claim C1 (confirmed): for a plain-text section whose parsed choice
list is non-empty (N entries), the menu offered is exactly the N
extracted choice texts followed by a single `Quit` entry (N+1 options),
and selecting the `Quit` entry ends the loop at once: no further events
are produced and the current-section pointer is returned unchanged. -/
theorem c1_menu_and_quit (story : String → Option (List String))
    (current : String) (lines : List String) (fuel i : Nat) (rest : List Nat)
    (hs : story current = some lines)
    (hN : (buildMenu (splitLines lines).2).1 ≠ [])
    (hq : ((buildMenu (splitLines lines).2).1 ++ ["Quit"])[i]?
            = some "Quit") :
    ((buildMenu (splitLines lines).2).1 ++ ["Quit"]).length
      = (buildMenu (splitLines lines).2).1.length + 1
    ∧ playFuel (fuel + 1) story current (i :: rest)
      = ((splitLines lines).1
          ++ [Event.menu ((buildMenu (splitLines lines).2).1 ++ ["Quit"])],
         current) := by
  refine ⟨by simp, ?_⟩
  have hlen : 0 < (buildMenu (splitLines lines).2).1.length :=
    List.length_pos.mpr hN
  simp [playFuel, hs, hlen, hq]

/-- Witness for C1 on a concrete story: one narrative line, one choice
(`Go`), menu `[Go, Quit]`; selecting index 1 (the Quit entry) stops at
the menu with the pointer still on `start`. -/
theorem c1_witness :
    ((buildMenu (splitLines ["You wake.", "* Go -> left"]).2).1
        ++ ["Quit"]).length
      = (buildMenu (splitLines ["You wake.", "* Go -> left"]).2).1.length + 1
    ∧ playFuel 1 (parseText "=== start ===\nYou wake.\n* Go -> left").story
        "start" [1]
      = ((splitLines ["You wake.", "* Go -> left"]).1
          ++ [Event.menu ((buildMenu (splitLines
                ["You wake.", "* Go -> left"]).2).1 ++ ["Quit"])],
         "start") :=
  c1_menu_and_quit _ "start" ["You wake.", "* Go -> left"] 0 1 []
    (by decide) (by decide) (by decide)

/-- Claim C2 counterexample: the line `* hello` begins with `*` but has
no arrow token, so by the claim it is not a choice line and, being
non-empty, must be printed as narrative text.  The code instead routes
it to choice processing (`isChoiceLine` is true) and, since the arrow
pattern does not match, drops it: playing the section prints nothing at
all — the event list has no `print` event — and ends. -/
theorem c2_counterexample :
    specChoiceLine "* hello" = false
    ∧ isChoiceLine "* hello" = true
    ∧ playFuel 1 (parseText "=== start ===\n* hello").story "start" []
        = ([Event.endOfSection], "start") := by
  decide

/-- Claim C2 (amended): a line is routed to choice processing iff it
begins with `*` or its lower-cased text contains `[exit]`; every other
line of the section is printed as narrative, in order; of the routed
lines, exactly those matching the extraction pattern (optional leading
`*`, text, `->`, non-blank target) become menu choices, and routed lines
that do not match are dropped (neither printed nor offered). -/
theorem c2_routing_amended (lines : List String) :
    (splitLines lines).1
      = (lines.filter (fun l => !(isChoiceLine l))).map Event.print
    ∧ (splitLines lines).2 = lines.filter (fun l => isChoiceLine l)
    ∧ (buildMenu (splitLines lines).2).1
      = ((splitLines lines).2).filterMap
          (fun l => (extractChoice l).map Prod.fst) := by
  refine ⟨splitLines_fst lines, splitLines_snd lines, ?_⟩
  have := buildMenu_foldl (splitLines lines).2 ([], fun _ => none)
  simpa [buildMenu] using this

/-- Claim C3 counterexample: the empty-object save document (both
required fields absent) is not rejected by any document-validation step:
`replay` passes the absent compiled source straight to the engine
constructor (the trace contains the constructor call with an absent
argument), and the resulting throw is reported through the same
catch-all `Failed to restore game:` message as a parse error would be —
there is no distinct invalid-save-file failure preceding
reconstruction, contrary to the claimed `InvalidSaveFile` /
`RestoreFailed` distinction. -/
theorem c3_counterexample :
    REffect.ctorCall none ∈ (replayT parseJson0 ctorErr0 loadErr0 "\x7b\x7d").2
    ∧ (replayT parseJson0 ctorErr0 loadErr0 "\x7b\x7d").1
      = ReplayOutcome.failed
          ("Failed to restore game: " ++ "Cannot read properties of undefined")
          1 := by
  decide

/-- Claim C3 (amended): `replay` performs no field-presence validation —
whenever the document parses, engine reconstruction is attempted with
whatever (possibly absent) `storyJson` field the document has — and
every failure, whether from parsing the document or from the engine
while reconstructing or applying state, is caught by the single handler,
reported as `Failed to restore game: <error>`, and exits the process
with code 1 (non-zero). -/
theorem c3_catch_all (parse : String → Except String SaveDoc)
    (ctorErr loadErr : Option String → Option String) (content : String) :
    ((replayT parse ctorErr loadErr content).1 = ReplayOutcome.restored
      ∨ ∃ e, (replayT parse ctorErr loadErr content).1
          = ReplayOutcome.failed ("Failed to restore game: " ++ e) 1)
    ∧ (∀ doc, parse content = Except.ok doc →
        REffect.ctorCall doc.storyJson
          ∈ (replayT parse ctorErr loadErr content).2) := by
  constructor
  · cases hp : parse content with
    | error e => exact Or.inr ⟨e, by simp [replayT, hp]⟩
    | ok doc =>
      cases hc : ctorErr doc.storyJson with
      | some e => exact Or.inr ⟨e, by simp [replayT, hp, hc]⟩
      | none =>
        cases hl : loadErr doc.state with
        | some e => exact Or.inr ⟨e, by simp [replayT, hp, hc, hl]⟩
        | none => exact Or.inl (by simp [replayT, hp, hc, hl])
  · intro doc hdoc
    cases hc : ctorErr doc.storyJson with
    | some e => simp [replayT, hdoc, hc]
    | none =>
      cases hl : loadErr doc.state with
      | some e => simp [replayT, hdoc, hc, hl]
      | none => simp [replayT, hdoc, hc, hl]

/-- Witness for the amended C3 at the concrete empty-object document:
the engine constructor is reached with an absent compiled source. -/
theorem c3_witness :
    REffect.ctorCall none
      ∈ (replayT parseJson0 ctorErr0 loadErr0 "\x7b\x7d").2 :=
  (c3_catch_all parseJson0 ctorErr0 loadErr0 "\x7b\x7d").2
    { storyJson := none, state := none } (by rfl)

/-- Claim C4 (confirmed): when the input path does not exist, `compileInk`
returns the missing-input failure and its entire effect trace is the one
existence check of the input — in particular no candidate compiler
location is probed and no subprocess is invoked. -/
theorem c4_missing_input (fs : String → Bool) (execErr : String → Option String)
    (dirname cwd home : String) (pf : Platform) (args : CompileArgs)
    (h : fs args.inputPath = false) :
    compileInkT fs execErr dirname cwd home pf args
      = ({ success := false,
           error := some ("Input file not found: " ++ args.inputPath) },
         [CEffect.statInput args.inputPath]) := by
  simp [compileInkT, h]

/-- Witness for C4 on an empty filesystem. -/
theorem c4_witness :
    compileInkT (fun _ => false) (fun _ => none) "d" "c" "hm" Platform.linux
        { inputPath := "story.ink" }
      = ({ success := false,
           error := some ("Input file not found: " ++ "story.ink") },
         [CEffect.statInput "story.ink"]) :=
  c4_missing_input (fun _ => false) (fun _ => none) "d" "c" "hm"
    Platform.linux { inputPath := "story.ink" } rfl

/-- Claim C5 (confirmed): for an existing `.ink` input, when no candidate
location holds a compiler executable, `compileInk` returns the
compiler-not-found failure result (it cannot throw: the embedding is a
total function, matching the source where every fallible step is inside
`try`/`catch`), and no subprocess is invoked. -/
theorem c5_not_found (fs : String → Bool) (execErr : String → Option String)
    (dirname cwd home : String) (pf : Platform) (args : CompileArgs)
    (h1 : fs args.inputPath = true)
    (h2 : lowerS (extname args.inputPath) = ".ink")
    (h3 : ∀ p ∈ possiblePaths dirname cwd home pf, fs p = false) :
    (compileInkT fs execErr dirname cwd home pf args).1
      = { success := false, error := some "inklecate compiler not found.",
          inklecatePath := some "" }
    ∧ ∀ cmd, CEffect.exec cmd
        ∉ (compileInkT fs execErr dirname cwd home pf args).2 := by
  have hlin : ∀ p ∈ linuxPaths, fs p = false := by
    intro p hp
    apply h3
    simp only [linuxPaths, List.mem_cons, List.mem_singleton] at hp
    rcases hp with rfl | hp
    · simp [possiblePaths]
    · rcases hp with rfl | hfalse
      · simp [possiblePaths]
      · simp at hfalse
  have hfind : findInklecateT fs dirname cwd home pf
      = (none, possiblePaths dirname cwd home pf
          ++ (if pf = Platform.linux then linuxPaths else [])) := by
    unfold findInklecateT
    rw [findFirstT_none fs _ h3]
    by_cases hpf : pf = Platform.linux
    · simp [hpf, findFirstT_none fs _ hlin]
    · simp [hpf]
  constructor
  · simp [compileInkT, h1, h2, hfind]
  · intro cmd
    simp [compileInkT, h1, h2, hfind]

/-- Witness for C5: the filesystem holds only the input file. -/
theorem c5_witness :
    (compileInkT (fun p => decide (p = "story.ink")) (fun _ => none)
        "d" "c" "hm" Platform.linux { inputPath := "story.ink" }).1
      = { success := false, error := some "inklecate compiler not found.",
          inklecatePath := some "" }
    ∧ ∀ cmd, CEffect.exec cmd
        ∉ (compileInkT (fun p => decide (p = "story.ink")) (fun _ => none)
            "d" "c" "hm" Platform.linux { inputPath := "story.ink" }).2 :=
  c5_not_found (fun p => decide (p = "story.ink")) (fun _ => none)
    "d" "c" "hm" Platform.linux { inputPath := "story.ink" }
    (by decide) (by decide) (by decide)

/-- Claim C6 (confirmed): for every non-blank text unit (a blank one is
not displayed at all, see C9) and every tag list, the style applied is
exactly the one computed by the spec's fixed priority order
title > scene > combat > dialog > plain: the style of the
highest-priority recognized tag present, else plain — and it is a single
style (`displayText` returns one `some`). -/
theorem c6_priority_style (text : String) (tags : List String)
    (h : (jsTrim text.data).isEmpty = false) :
    displayText text tags = some (specPriorityStyle tags) := by
  cases h1 : tagsHave tags "title" <;>
  cases h2 : tagsHave tags "scene" <;>
  cases h3 : tagsHave tags "combat" <;>
  cases h4 : tagsHave tags "dialog" <;>
  simp [displayText, specPriorityStyle, specPriorityOrder, List.find?,
    h, h1, h2, h3, h4]

/-- Witness for C6: with both `combat` and `title` present the applied
style is the priority choice (title). -/
theorem c6_witness :
    displayText "Ambush!" ["combat", "title"]
      = some (specPriorityStyle ["combat", "title"]) :=
  c6_priority_style "Ambush!" ["combat", "title"] (by decide)

/-- Claim C7 (confirmed): whenever the current-section pointer names a
section absent from the parsed map, the loop reports exactly the
missing-section message and terminates — the event list is that single
report, nothing is printed or offered after it, and the function returns
(no exception).  The second part instantiates this at the loop entry,
section `start`. -/
theorem c7_missing_section (story : String → Option (List String))
    (current : String) (inputs : List Nat) (fuel : Nat) (content : String) :
    (story current = none →
      playFuel (fuel + 1) story current inputs
        = ([Event.missingSection current], current))
    ∧ ((parseText content).story "start" = none →
      runTextStory content inputs (fuel + 1)
        = ([Event.missingSection "start"], "start")) := by
  constructor
  · intro h
    simp [playFuel, h]
  · intro h
    simp [runTextStory, playFuel, h]

/-- Witness for C7 on the empty section map. -/
theorem c7_witness :
    playFuel 1 (fun _ => none) "start" []
      = ([Event.missingSection "start"], "start") :=
  (c7_missing_section (fun _ => none) "start" [] 0 "").1 rfl

/-- Claim C8 (confirmed): running an ink file with no discoverable
compiler falls back to the plain-text interpreter on the same file;
a failed compilation during `run` also falls back to the plain-text
interpreter on the same file; a failed compilation under the explicit
`compile` command exits the process with code 1 (non-zero). -/
theorem c8_fallback_vs_fatal (fs : String → Bool)
    (execErr : String → Option String) (jsonOk : Bool)
    (dirname cwd home : String) (pf : Platform)
    (file : String) (verbose : Bool) :
    (findInklecate fs dirname cwd home pf = none →
      runInkStory fs execErr jsonOk dirname cwd home pf file verbose
        = RunMode.textFallback file)
    ∧ ((compileInkT fs execErr dirname cwd home pf
          { inputPath := file, outputPath := some (replaceInkExt file),
            verbose := verbose }).1.success = false →
      runInkStory fs execErr jsonOk dirname cwd home pf file verbose
        = RunMode.textFallback file)
    ∧ ((compileInkT fs execErr dirname cwd home pf
          { inputPath := file }).1.success = false →
      compileCmd fs execErr dirname cwd home pf file = 1) := by
  refine ⟨?_, ?_, ?_⟩
  · intro h
    simp [runInkStory, h]
  · intro h
    cases hfi : findInklecate fs dirname cwd home pf with
    | none => simp [runInkStory, hfi]
    | some ip => simp [runInkStory, hfi, h]
  · intro h
    simp [compileCmd, h]

/-- Witness for C8: with no compiler on the filesystem, running the ink
file falls back to text mode on the same file. -/
theorem c8_witness :
    runInkStory (fun p => decide (p = "story.ink")) (fun _ => none) true
      "d" "c" "hm" Platform.linux "story.ink" false
      = RunMode.textFallback "story.ink" :=
  (c8_fallback_vs_fatal (fun p => decide (p = "story.ink")) (fun _ => none)
    true "d" "c" "hm" Platform.linux "story.ink" false).1 (by decide)

/-- Claim C9 (confirmed): a text unit that is empty or whitespace-only
produces no output at all, whatever the tag list — `displayText` returns
before any styling branch. -/
theorem c9_blank_prints_nothing (text : String) (tags : List String)
    (h : (jsTrim text.data).isEmpty = true) :
    displayText text tags = none := by
  simp [displayText, h]

/-- Witness for C9: whitespace-only text with a `title` tag prints
nothing. -/
theorem c9_witness :
    (jsTrim "   ".data).isEmpty = true
    ∧ displayText "   " ["title"] = none :=
  ⟨by decide, c9_blank_prints_nothing "   " ["title"] (by decide)⟩

/-- Claim C10 (confirmed): when a section-marker line for name `n` is the
last marker of the input, the parsed map binds `n` to exactly the
(non-blank) lines that follow it, regardless of anything bound to `n`
from earlier occurrences of the marker in the prefix — each marker
occurrence resets the binding, so earlier lines are discarded. -/
theorem c10_last_marker_wins (content n marker : String)
    (ls1 ls2 : List String)
    (hsplit : linesOf content = ls1 ++ marker :: ls2)
    (hm : startsWithMarker marker.data = true)
    (hname : String.mk (jsTrim (stripMarkers marker.data)) = n)
    (hn : n ≠ "")
    (hnm : ∀ l ∈ ls2, startsWithMarker l.data = false) :
    (parseText content).story n = some ls2 := by
  have hmem : ∀ l ∈ ls2, (jsTrim l.data).isEmpty = false := by
    intro l hl
    have hin : l ∈ linesOf content := by
      rw [hsplit]
      exact List.mem_append_right _ (List.mem_cons_of_mem _ hl)
    have := List.of_mem_filter hin
    simpa using this
  unfold parseText
  rw [hsplit, List.foldl_append, List.foldl_cons]
  have hstep : parseLine (ls1.foldl parseLine initParseState) marker
      = markerLine (ls1.foldl parseLine initParseState) marker := by
    unfold parseLine
    rw [hm]
    simp
  rw [hstep]
  have hsec : (markerLine (ls1.foldl parseLine initParseState) marker).currentSection = n := by
    unfold markerLine
    simpa using hname
  have hst : (markerLine (ls1.foldl parseLine initParseState) marker).story n
      = some [] := by
    unfold markerLine
    simp [hname]
  have := parse_foldl_push ls2
    (markerLine (ls1.foldl parseLine initParseState) marker) n [] hsec hn
    (fun l hl => ⟨hnm l hl, hmem l hl⟩) hst
  simpa using this

/-- Witness for C10: the name `a` appears as a marker twice; the map
binds `a` only to the line after the second marker, the earlier line is
discarded. -/
theorem c10_witness :
    (parseText "=== a ===\nold\n=== a ===\nnew").story "a" = some ["new"] :=
  c10_last_marker_wins "=== a ===\nold\n=== a ===\nnew" "a" "=== a ==="
    ["=== a ===", "old"] ["new"]
    (by decide) (by decide) (by decide) (by decide) (by decide)
